import Mathlib

/-!
Verification of the obsidian-ai-voice-notes audio core.

The development embeds the two source files of the repository:

* `src/utils.ts` — the linear-interpolation resampler `resampleAudio` and the
  audio loaders `read_audio` / `read_audio_from_blob`.  Audio samples and
  sample rates are modelled as rationals (exact arithmetic over the numbers
  the algorithm manipulates); `Math.round` is modelled by `jsRound`
  (round half toward plus infinity).  A JavaScript array read `a[index]` is
  modelled by `List.getD` with default 0; the in-bounds theorems show the
  default is never consulted for the inputs of interest.

* the Whisper transcription service (`WhisperTranscriber`) — its mutable
  fields become `ServiceState`; the single-threaded event-loop execution of
  concurrent `initialize` calls and of the settlement of the shared loading
  promise becomes a deterministic step machine `step` over a system state
  `Sys`, driven by a script of `Event`s.  Each service call runs
  synchronously up to its first suspension point, exactly as the JavaScript
  code does on one task queue.
-/

/-- JavaScript Math.round: nearest integer, ties rounded toward plus
infinity, i.e. the floor of the argument plus one half. -/
def jsRound (q : ℚ) : ℤ := ⌊q + 1 / 2⌋

/-- Embedding of resampleAudio from src/utils.ts.  If the rates are equal the
input is returned unchanged; otherwise each output index i of the rounded new
length reads position i * ratio, takes the floor as the base index and the
fractional part as the interpolation weight, interpolating with the next
sample when one exists and clamping to the base sample otherwise. -/
def resampleAudio (audioData : List ℚ) (inputRate outputRate : ℚ) : List ℚ :=
  if inputRate = outputRate then
    audioData
  else
    let ratio := inputRate / outputRate
    let newLength := (jsRound ((audioData.length : ℚ) / ratio)).toNat
    (List.range newLength).map (fun (i : ℕ) =>
      let position := (i : ℚ) * ratio
      let index := ⌊position⌋
      let fraction := position - (index : ℚ)
      if index + 1 < (audioData.length : ℤ) then
        audioData.getD index.toNat 0 * (1 - fraction) +
          audioData.getD (index.toNat + 1) 0 * fraction
      else
        audioData.getD index.toNat 0)

/-- Result of the external audio decoder (decodeAudioData): the decoded
channels and the native sample rate of the container. -/
structure DecodedAudio where
  channels : List (List ℚ)
  sampleRate : ℚ
deriving DecidableEq

/-- Embedding of read_audio from src/utils.ts, after the external fetch and
decode steps: select channel 0 of the decoded audio, resample when the native
rate differs from the requested rate, otherwise return the channel data
unchanged (the source copies it into a fresh Float32Array, element for
element). -/
def read_audio (decoded : DecodedAudio) (sampling_rate : ℚ) : List ℚ :=
  let channelData := decoded.channels.getD 0 []
  if decoded.sampleRate ≠ sampling_rate then
    resampleAudio channelData decoded.sampleRate sampling_rate
  else
    channelData

/-- Embedding of read_audio_from_blob from src/utils.ts, after the external
byte extraction and decode steps; the post-decode logic is written out
separately because the source repeats it. -/
def read_audio_from_blob (decoded : DecodedAudio) (sampling_rate : ℚ) : List ℚ :=
  let channelData := decoded.channels.getD 0 []
  if decoded.sampleRate ≠ sampling_rate then
    resampleAudio channelData decoded.sampleRate sampling_rate
  else
    channelData

/-- The opaque pipeline handle produced by the external inference library for
a given model name (the library is a deterministic external collaborator, so
the handle is determined by the name it was loaded from). -/
structure ModelPipeline where
  modelName : String
deriving DecidableEq

/-- Status of the shared loading promise stored in loadingPromise. -/
inductive PromiseStatus where
  | pending
  | fulfilled
  | rejected
deriving DecidableEq

/-- The promise created by a call of loadModel: which model name it is
loading and whether it is still pending, fulfilled or rejected. -/
structure LoadingTask where
  modelName : String
  status : PromiseStatus
deriving DecidableEq

/-- The mutable fields of the WhisperTranscriber class: the transcriber
pipeline (null when not loaded), the isLoading flag and the stored loading
promise. -/
structure ServiceState where
  transcriber : Option ModelPipeline
  isLoading : Bool
  loadingPromise : Option LoadingTask
deriving DecidableEq

/-- How one invocation of the service's initialization method settles: its
promise fulfills (recording the transcriber field the caller observes at
resolution) or it rejects because the model load failed. -/
inductive InitResult where
  | resolved (observed : Option ModelPipeline)
  | rejectedLoad
deriving DecidableEq

/-- The whole system: the service state, the caller that started the pending
load and still has to clear isLoading (owner), the callers suspended on the
shared promise (waiters), how many underlying model loads have been started,
and the settled results of the initialization calls, keyed by caller id. -/
structure Sys where
  state : ServiceState
  owner : Option Nat
  waiters : List Nat
  loadsStarted : Nat
  results : List (Nat × InitResult)
deriving DecidableEq

/-- A fresh service: transcriber null, not loading, no stored promise. -/
def initialService : ServiceState :=
  { transcriber := none, isLoading := false, loadingPromise := none }

/-- A fresh system around a fresh service. -/
def initialSys : Sys :=
  { state := initialService, owner := none, waiters := [],
    loadsStarted := 0, results := [] }

/-- Events of the single-threaded event loop: a caller invokes the service's
initialization method with a model name (its body runs synchronously up to
its first await), or the pending model load settles (successfully or not). -/
inductive Event where
  | arrive (id : Nat) (modelName : String)
  | settle (ok : Bool)
deriving DecidableEq

/-- Synchronous prefix of the initialization method for caller id.  Mirrors
the source: if the transcriber is set, return at once (the caller observes
the stored handle); if isLoading, await the stored promise — pending means
suspend as a waiter, an already fulfilled promise resumes at once observing
the transcriber, an already rejected promise rethrows (awaiting a null
promise resolves immediately, as in JavaScript); otherwise set isLoading,
store a fresh pending load of the requested model and count one load
started. -/
def stepArrive (sys : Sys) (id : Nat) (modelName : String) : Sys :=
  match sys.state.transcriber with
  | some m => { sys with results := sys.results ++ [(id, InitResult.resolved (some m))] }
  | none =>
    if sys.state.isLoading then
      match sys.state.loadingPromise with
      | some t =>
        match t.status with
        | PromiseStatus.pending => { sys with waiters := sys.waiters ++ [id] }
        | PromiseStatus.fulfilled =>
          { sys with results := sys.results ++ [(id, InitResult.resolved sys.state.transcriber)] }
        | PromiseStatus.rejected =>
          { sys with results := sys.results ++ [(id, InitResult.rejectedLoad)] }
      | none =>
        { sys with results := sys.results ++ [(id, InitResult.resolved sys.state.transcriber)] }
    else
      { sys with
        state := { sys.state with
          isLoading := true
          loadingPromise := some { modelName := modelName, status := PromiseStatus.pending } }
        owner := some id
        loadsStarted := sys.loadsStarted + 1 }

/-- Settlement of the pending model load.  On success the load body assigns
the transcriber before its promise fulfills, then the owner resumes and
clears isLoading and every waiter resumes observing the new transcriber.  On
failure the promise rejects, the transcriber is untouched, the awaits of the
owner and of every waiter rethrow, and — exactly as in the source, where the
statement after the await never runs — isLoading is left as it was and the
rejected promise stays stored. -/
def stepSettle (sys : Sys) (ok : Bool) : Sys :=
  match sys.state.loadingPromise with
  | some t =>
    match t.status with
    | PromiseStatus.pending =>
      if ok then
        let m : ModelPipeline := { modelName := t.modelName }
        { state := { transcriber := some m, isLoading := false,
                     loadingPromise := some { modelName := t.modelName,
                                              status := PromiseStatus.fulfilled } }
          owner := none
          waiters := []
          loadsStarted := sys.loadsStarted
          results := sys.results ++
            (match sys.owner with
             | some o => [(o, InitResult.resolved (some m))]
             | none => []) ++
            sys.waiters.map (fun w => (w, InitResult.resolved (some m))) }
      else
        { state := { transcriber := sys.state.transcriber,
                     isLoading := sys.state.isLoading,
                     loadingPromise := some { modelName := t.modelName,
                                              status := PromiseStatus.rejected } }
          owner := none
          waiters := []
          loadsStarted := sys.loadsStarted
          results := sys.results ++
            (match sys.owner with
             | some o => [(o, InitResult.rejectedLoad)]
             | none => []) ++
            sys.waiters.map (fun w => (w, InitResult.rejectedLoad)) }
    | _ => sys
  | none => sys

/-- One event-loop step. -/
def step (sys : Sys) : Event → Sys
  | Event.arrive id name => stepArrive sys id name
  | Event.settle ok => stepSettle sys ok

/-- Run a script of events from a given system state. -/
def runFrom (sys : Sys) (events : List Event) : Sys :=
  events.foldl step sys

/-- Run a script of events from the fresh system. -/
def run (events : List Event) : Sys :=
  runFrom initialSys events

/-- Embedding of isReady: a pure read of whether the transcriber is set. -/
def isReady (st : ServiceState) : Bool :=
  st.transcriber.isSome

/-- Embedding of dispose: clears the transcriber reference when it is set and
touches nothing else. -/
def dispose (st : ServiceState) : ServiceState :=
  match st.transcriber with
  | some _ => { st with transcriber := none }
  | none => st

/-- The error thrown by the transcription methods when the transcriber is
null: Transcriber not initialized. -/
inductive TranscribeError where
  | notInitialized
deriving DecidableEq

/-- Observable external actions of a transcription call: loading (fetching,
decoding, resampling) the audio, and running model inference. -/
inductive TranscribeStep where
  | audioLoad
  | inference
deriving DecidableEq

/-- Embedding of transcribeFromUrl.  The external fetch and decode of the URL
are abstracted by the decoded audio they produce, the model metadata read
processor.feature_extractor.config.sampling_rate by rateOf, and the external
inference call by infer.  The result pairs the outcome with the trace of
external actions performed: when the transcriber is null the method throws
before loading any audio or running inference, so the trace is empty. -/
def transcribeFromUrl (st : ServiceState) (rateOf : ModelPipeline → ℚ)
    (decoded : DecodedAudio) (infer : ModelPipeline → List ℚ → String) :
    Except TranscribeError String × List TranscribeStep :=
  match st.transcriber with
  | none => (Except.error TranscribeError.notInitialized, [])
  | some m =>
    let audio := read_audio decoded (rateOf m)
    (Except.ok (infer m audio), [TranscribeStep.audioLoad, TranscribeStep.inference])

/-- Embedding of transcribeFromBlob, identical to transcribeFromUrl except
that the audio bytes come from a blob and are decoded by
read_audio_from_blob. -/
def transcribeFromBlob (st : ServiceState) (rateOf : ModelPipeline → ℚ)
    (decoded : DecodedAudio) (infer : ModelPipeline → List ℚ → String) :
    Except TranscribeError String × List TranscribeStep :=
  match st.transcriber with
  | none => (Except.error TranscribeError.notInitialized, [])
  | some m =>
    let audio := read_audio_from_blob decoded (rateOf m)
    (Except.ok (infer m audio), [TranscribeStep.audioLoad, TranscribeStep.inference])

/-! Helper lemmas about the resampler. -/

/-- getD of a mapped range inside its length is the function value. -/
lemma getD_map_range (n : ℕ) (f : ℕ → ℚ) (i : ℕ) (hi : i < n) (d : ℚ) :
    ((List.range n).map f).getD i d = f i := by
  rw [List.getD_eq_getElem _ _ (by simpa using hi)]
  simp

/-- getD of a list inside its length is a member of the list. -/
lemma getD_mem (x : List ℚ) (j : ℕ) (hj : j < x.length) (d : ℚ) :
    x.getD j d ∈ x := by
  rw [List.getD_eq_getElem _ _ hj]
  exact List.getElem_mem hj

/-- The rounded value of a natural number is that number. -/
lemma jsRound_natCast (n : ℕ) : jsRound (n : ℚ) = (n : ℤ) := by
  rw [jsRound, Int.floor_eq_iff]
  constructor
  · push_cast
    linarith
  · push_cast
    linarith

/-- Core in-bounds fact: the floor of position i * ratio is nonnegative and
below the input length, for every output index i below the rounded new
length. -/
lemma floor_position_bounds (len : ℕ) (ratio : ℚ) (hr : 0 < ratio) (i : ℕ)
    (hi : i < (jsRound ((len : ℚ) / ratio)).toNat) :
    0 ≤ ⌊(i : ℚ) * ratio⌋ ∧ ⌊(i : ℚ) * ratio⌋ < (len : ℤ) := by
  have h0 : 0 ≤ ⌊(i : ℚ) * ratio⌋ :=
    Int.floor_nonneg.mpr (mul_nonneg (by positivity) hr.le)
  refine ⟨h0, ?_⟩
  have h1 : (i : ℤ) < jsRound ((len : ℚ) / ratio) := Int.lt_toNat.mp hi
  have h2 : ((i : ℤ) : ℚ) + 1 ≤ (jsRound ((len : ℚ) / ratio) : ℚ) := by
    exact_mod_cast Int.add_one_le_iff.mpr h1
  have h3 : (jsRound ((len : ℚ) / ratio) : ℚ) ≤ (len : ℚ) / ratio + 1 / 2 :=
    Int.floor_le _
  have h4 : (i : ℚ) ≤ (len : ℚ) / ratio - 1 / 2 := by
    push_cast at h2
    linarith
  have h5 : (len : ℚ) / ratio * ratio = (len : ℚ) := div_mul_cancel₀ _ hr.ne'
  have h6 : (i : ℚ) * ratio < (len : ℚ) := by
    have h7 := mul_le_mul_of_nonneg_right h4 hr.le
    nlinarith
  rw [Int.floor_lt]
  exact_mod_cast h6

/-- Length of the resampled output, in the spec's orientation
round(len * outputRate / inputRate). -/
lemma resampleAudio_length (x : List ℚ) (rin rout : ℚ) (h1 : 0 < rin) (h2 : 0 < rout) :
    (resampleAudio x rin rout).length = (jsRound ((x.length : ℚ) * rout / rin)).toNat := by
  by_cases h : rin = rout
  · subst h
    rw [resampleAudio, if_pos rfl]
    have hq : (x.length : ℚ) * rin / rin = (x.length : ℚ) := by
      field_simp
    rw [hq, jsRound_natCast]
    simp
  · rw [resampleAudio, if_neg h]
    simp only [List.length_map, List.length_range, div_div_eq_mul_div]

/-- The concrete scenario: four samples at rate 4 resampled to rate 2. -/
lemma resample_four_two : resampleAudio [0, 1, 0, -1] 4 2 = [0, 0] := by
  rw [resampleAudio]
  norm_num [jsRound]
  simp [List.range_succ]

/-- Empty input resamples to the empty sequence at any pair of rates. -/
lemma resample_nil (rin rout : ℚ) : resampleAudio [] rin rout = [] := by
  by_cases h : rin = rout
  · simp [resampleAudio, h]
  · rw [resampleAudio, if_neg h]
    norm_num [jsRound]

/-- Element formula of the resampler in the unequal-rates branch: each output
position below the rounded new length is the linear interpolation of the two
neighbouring samples when a next sample exists and the clamped base sample
otherwise. -/
lemma resampleAudio_getD (x : List ℚ) (rin rout : ℚ) (hne : rin ≠ rout) (i : ℕ)
    (hi : i < (jsRound ((x.length : ℚ) / (rin / rout))).toNat) :
    (resampleAudio x rin rout).getD i 0 =
      if ⌊(i : ℚ) * (rin / rout)⌋ + 1 < (x.length : ℤ) then
        x.getD (⌊(i : ℚ) * (rin / rout)⌋).toNat 0 *
            (1 - ((i : ℚ) * (rin / rout) - (⌊(i : ℚ) * (rin / rout)⌋ : ℚ))) +
          x.getD ((⌊(i : ℚ) * (rin / rout)⌋).toNat + 1) 0 *
            ((i : ℚ) * (rin / rout) - (⌊(i : ℚ) * (rin / rout)⌋ : ℚ))
      else x.getD (⌊(i : ℚ) * (rin / rout)⌋).toNat 0 := by
  rw [resampleAudio, if_neg hne]
  exact getD_map_range _ _ _ hi 0

/-- Every output sample of the resampler is bracketed by members of the
input: it is at least some input sample and at most some input sample. -/
lemma resample_mem_bounds (x : List ℚ) (rin rout : ℚ) (h1 : 0 < rin) (h2 : 0 < rout)
    (y : ℚ) (hy : y ∈ resampleAudio x rin rout) :
    (∃ a ∈ x, a ≤ y) ∧ ∃ b ∈ x, y ≤ b := by
  by_cases h : rin = rout
  · subst h
    rw [resampleAudio, if_pos rfl] at hy
    exact ⟨⟨y, hy, le_refl y⟩, ⟨y, hy, le_refl y⟩⟩
  · rw [resampleAudio, if_neg h] at hy
    simp only [List.mem_map, List.mem_range] at hy
    obtain ⟨i, hi, hfy⟩ := hy
    have hr : 0 < rin / rout := div_pos h1 h2
    obtain ⟨hge, hlt⟩ := floor_position_bounds x.length (rin / rout) hr i hi
    have hjlen : (⌊(i : ℚ) * (rin / rout)⌋).toNat < x.length := by omega
    have hfrac0 : 0 ≤ (i : ℚ) * (rin / rout) - (⌊(i : ℚ) * (rin / rout)⌋ : ℚ) :=
      sub_nonneg.mpr (Int.floor_le _)
    have hfrac1 : (i : ℚ) * (rin / rout) - (⌊(i : ℚ) * (rin / rout)⌋ : ℚ) ≤ 1 := by
      have := Int.lt_floor_add_one ((i : ℚ) * (rin / rout))
      linarith
    by_cases hb : ⌊(i : ℚ) * (rin / rout)⌋ + 1 < (x.length : ℤ)
    · have hj1 : (⌊(i : ℚ) * (rin / rout)⌋).toNat + 1 < x.length := by omega
      rw [if_pos hb] at hfy
      have hpmem := getD_mem x (⌊(i : ℚ) * (rin / rout)⌋).toNat hjlen 0
      have hqmem := getD_mem x ((⌊(i : ℚ) * (rin / rout)⌋).toNat + 1) hj1 0
      rcases le_total (x.getD (⌊(i : ℚ) * (rin / rout)⌋).toNat 0)
          (x.getD ((⌊(i : ℚ) * (rin / rout)⌋).toNat + 1) 0) with hpq | hpq
      · refine ⟨⟨_, hpmem, ?_⟩, ⟨_, hqmem, ?_⟩⟩
        · rw [← hfy]
          nlinarith
        · rw [← hfy]
          nlinarith
      · refine ⟨⟨_, hqmem, ?_⟩, ⟨_, hpmem, ?_⟩⟩
        · rw [← hfy]
          nlinarith
        · rw [← hfy]
          nlinarith
    · rw [if_neg hb] at hfy
      have hpmem := getD_mem x (⌊(i : ℚ) * (rin / rout)⌋).toNat hjlen 0
      rw [← hfy]
      exact ⟨⟨_, hpmem, le_refl _⟩, ⟨_, hpmem, le_refl _⟩⟩

/-! Helper lemmas about the service step machine. -/

/-- An arrival while a load is pending only appends the caller to the
waiters of the shared promise. -/
lemma stepArrive_loading (sys : Sys) (id : Nat) (name n : String)
    (ht : sys.state.transcriber = none) (hl : sys.state.isLoading = true)
    (hp : sys.state.loadingPromise =
      some { modelName := n, status := PromiseStatus.pending }) :
    stepArrive sys id name = { sys with waiters := sys.waiters ++ [id] } := by
  unfold stepArrive
  rw [ht, hl, hp]
  rfl

/-- Any sequence of arrivals while a load is pending leaves everything but
the waiter list unchanged: no new load is started, no result is produced,
and the service state is untouched. -/
lemma runFrom_arrivals_loading (rest : List (Nat × String)) (sys : Sys) (n : String)
    (ht : sys.state.transcriber = none) (hl : sys.state.isLoading = true)
    (hp : sys.state.loadingPromise =
      some { modelName := n, status := PromiseStatus.pending }) :
    runFrom sys (rest.map (fun p => Event.arrive p.1 p.2)) =
      { sys with waiters := sys.waiters ++ rest.map Prod.fst } := by
  induction rest generalizing sys with
  | nil => simp [runFrom]
  | cons hd tl ih =>
    simp only [List.map_cons, runFrom, List.foldl_cons]
    have hstep : step sys (Event.arrive hd.1 hd.2) =
        { sys with waiters := sys.waiters ++ [hd.1] } := by
      show stepArrive sys hd.1 hd.2 = _
      exact stepArrive_loading sys hd.1 hd.2 n ht hl hp
    rw [hstep]
    have h2 := ih { sys with waiters := sys.waiters ++ [hd.1] } ht hl hp
    simp only [runFrom] at h2
    rw [h2]
    simp

/-! Claim theorems. -/

/-- C1: the claim says that when the model load started by the
initialization call throws, the load state reverts to Unloaded (transcriber
null, isLoading false, no pending loading operation retained) so a
subsequent call can retry with a fresh load.  Evaluating the embedded code
at the failing input shows the opposite: after a failed load the service
keeps isLoading set and retains the rejected promise, the transcriber stays
null, and a retry call merely awaits the rejected promise and rethrows —
loadsStarted stays at 1, no fresh load begins. -/
theorem c1_failed_load_state_not_reset :
    (run [Event.arrive 0 "model-a", Event.settle false,
      Event.arrive 1 "model-a"]).state.transcriber = none ∧
    (run [Event.arrive 0 "model-a", Event.settle false,
      Event.arrive 1 "model-a"]).state.isLoading = true ∧
    (run [Event.arrive 0 "model-a", Event.settle false,
      Event.arrive 1 "model-a"]).state.loadingPromise =
        some { modelName := "model-a", status := PromiseStatus.rejected } ∧
    (run [Event.arrive 0 "model-a", Event.settle false,
      Event.arrive 1 "model-a"]).loadsStarted = 1 ∧
    (run [Event.arrive 0 "model-a", Event.settle false,
      Event.arrive 1 "model-a"]).results =
        [(0, InitResult.rejectedLoad), (1, InitResult.rejectedLoad)] := by
  decide

/-- C2: in every state whose transcriber is null — before any successful
initialization and again after dispose — both transcription methods fail
with the NotInitialized error and an empty trace of external actions (no
audio loading, no inference), and after dispose the transcriber is null and
isReady returns false. -/
theorem c2_not_loaded_guard (st st2 : ServiceState) (rateOf : ModelPipeline → ℚ)
    (decoded : DecodedAudio) (infer : ModelPipeline → List ℚ → String)
    (h : st.transcriber = none) :
    transcribeFromUrl st rateOf decoded infer =
      (Except.error TranscribeError.notInitialized, []) ∧
    transcribeFromBlob st rateOf decoded infer =
      (Except.error TranscribeError.notInitialized, []) ∧
    (dispose st2).transcriber = none ∧
    isReady (dispose st2) = false ∧
    transcribeFromUrl (dispose st2) rateOf decoded infer =
      (Except.error TranscribeError.notInitialized, []) ∧
    transcribeFromBlob (dispose st2) rateOf decoded infer =
      (Except.error TranscribeError.notInitialized, []) := by
  have hd : (dispose st2).transcriber = none := by
    unfold dispose
    cases h2 : st2.transcriber
    · exact h2
    · rfl
  refine ⟨?_, ?_, hd, ?_, ?_, ?_⟩
  · unfold transcribeFromUrl
    rw [h]
  · unfold transcribeFromBlob
    rw [h]
  · unfold isReady
    rw [hd]
    rfl
  · unfold transcribeFromUrl
    rw [hd]
  · unfold transcribeFromBlob
    rw [hd]

/-- Witness for C2 at concrete inputs: the fresh service rejects a URL
transcription with NotInitialized, and a disposed loaded service reports not
ready. -/
theorem c2_witness :
    transcribeFromUrl initialService (fun _ => 16000)
      { channels := [], sampleRate := 0 } (fun _ _ => "") =
      (Except.error TranscribeError.notInitialized, []) ∧
    isReady (dispose { transcriber := some { modelName := "model-a" },
                       isLoading := false, loadingPromise := none }) = false := by
  have h := c2_not_loaded_guard initialService
    { transcriber := some { modelName := "model-a" },
      isLoading := false, loadingPromise := none }
    (fun _ => 16000) { channels := [], sampleRate := 0 } (fun _ _ => "") rfl
  exact ⟨h.1, h.2.2.2.1⟩

/-- C3: single-flight — one caller arrives on the unloaded service and any
number of further callers arrive while the load is in flight, each possibly
with a different model name; when the load settles successfully, exactly one
underlying model load has been started and every caller resolves observing
the same pipeline handle, built from the first caller's model name. -/
theorem c3_single_flight (id0 : Nat) (n0 : String) (rest : List (Nat × String)) :
    (run (Event.arrive id0 n0 ::
      (rest.map (fun p => Event.arrive p.1 p.2) ++ [Event.settle true]))).loadsStarted = 1 ∧
    (run (Event.arrive id0 n0 ::
      (rest.map (fun p => Event.arrive p.1 p.2) ++ [Event.settle true]))).results =
      (id0, InitResult.resolved (some { modelName := n0 })) ::
        rest.map (fun p => (p.1, InitResult.resolved (some { modelName := n0 }))) := by
  have hfirst : step initialSys (Event.arrive id0 n0) =
      { state := { transcriber := none, isLoading := true,
                   loadingPromise := some { modelName := n0,
                                            status := PromiseStatus.pending } },
        owner := some id0, waiters := [], loadsStarted := 1, results := [] } := rfl
  have hmid := runFrom_arrivals_loading rest
    { state := { transcriber := none, isLoading := true,
                 loadingPromise := some { modelName := n0,
                                          status := PromiseStatus.pending } },
      owner := some id0, waiters := [], loadsStarted := 1, results := [] } n0 rfl rfl rfl
  simp only [runFrom] at hmid
  simp only [run, runFrom, List.foldl_cons, List.foldl_append, hfirst, hmid,
    List.foldl_nil]
  constructor
  · rfl
  · show (stepSettle _ true).results = _
    simp [stepSettle, List.map_map, Function.comp]

/-- Witness for C3: two concurrent callers with different model names, one
load started, both resolve with the first name's handle. -/
theorem c3_witness :
    (run [Event.arrive 0 "model-a", Event.arrive 1 "model-b",
      Event.settle true]).loadsStarted = 1 ∧
    (run [Event.arrive 0 "model-a", Event.arrive 1 "model-b",
      Event.settle true]).results =
      [(0, InitResult.resolved (some { modelName := "model-a" })),
       (1, InitResult.resolved (some { modelName := "model-a" }))] := by
  have h := c3_single_flight 0 "model-a" [(1, "model-b")]
  exact ⟨h.1, h.2⟩

/-- C4: once the transcriber is loaded, a further initialization call with
any model name returns immediately with the stored handle: the whole system
is unchanged except for the caller's resolved result — in particular no new
load is started and the stored handle is untouched. -/
theorem c4_idempotent_once_loaded (sys : Sys) (id : Nat) (name : String)
    (m : ModelPipeline) (h : sys.state.transcriber = some m) :
    step sys (Event.arrive id name) =
      { sys with results := sys.results ++ [(id, InitResult.resolved (some m))] } := by
  show stepArrive sys id name = _
  unfold stepArrive
  rw [h]

/-- Witness for C4: a loaded service, a further call with a different model
name, the stored handle and load count unchanged. -/
theorem c4_witness :
    step { state := { transcriber := some { modelName := "model-a" },
                      isLoading := false, loadingPromise := none },
           owner := none, waiters := [], loadsStarted := 1, results := [] }
      (Event.arrive 5 "model-b") =
    { state := { transcriber := some { modelName := "model-a" },
                 isLoading := false, loadingPromise := none },
      owner := none, waiters := [], loadsStarted := 1,
      results := [(5, InitResult.resolved (some { modelName := "model-a" }))] } :=
  c4_idempotent_once_loaded _ 5 "model-b" { modelName := "model-a" } rfl

/-- C5: element formula of the resampler for positive, distinct rates — each
output index i below the new length carries the linear interpolation
samples(index) * (1 - fraction) + samples(index + 1) * fraction when
index + 1 is below the input length and the clamped samples(index)
otherwise, where index is the floor and fraction the fractional part of
i * (inputRate / outputRate); and the concrete scenario: resampling
0, 1, 0, -1 from rate 4 to rate 2 yields exactly 0, 0. -/
theorem c5_interpolation_formula (x : List ℚ) (rin rout : ℚ)
    (h1 : 0 < rin) (h2 : 0 < rout) (hne : rin ≠ rout) (i : ℕ)
    (hi : i < (resampleAudio x rin rout).length) :
    ((resampleAudio x rin rout).getD i 0 =
      if ⌊(i : ℚ) * (rin / rout)⌋ + 1 < (x.length : ℤ) then
        x.getD (⌊(i : ℚ) * (rin / rout)⌋).toNat 0 *
            (1 - ((i : ℚ) * (rin / rout) - (⌊(i : ℚ) * (rin / rout)⌋ : ℚ))) +
          x.getD ((⌊(i : ℚ) * (rin / rout)⌋).toNat + 1) 0 *
            ((i : ℚ) * (rin / rout) - (⌊(i : ℚ) * (rin / rout)⌋ : ℚ))
      else x.getD (⌊(i : ℚ) * (rin / rout)⌋).toNat 0) ∧
    resampleAudio [0, 1, 0, -1] 4 2 = [0, 0] := by
  have hlen : (resampleAudio x rin rout).length =
      (jsRound ((x.length : ℚ) / (rin / rout))).toNat := by
    rw [resampleAudio, if_neg hne]
    simp only [List.length_map, List.length_range]
  rw [hlen] at hi
  exact ⟨resampleAudio_getD x rin rout hne i hi, resample_four_two⟩

/-- Witness for C5 at the scenario input, output index 0. -/
theorem c5_witness :
    (resampleAudio [0, 1, 0, -1] 4 2).getD 0 0 = 0 ∧
    resampleAudio [0, 1, 0, -1] 4 2 = [0, 0] := by
  have h := c5_interpolation_formula [0, 1, 0, -1] 4 2 (by norm_num) (by norm_num)
    (by norm_num) 0 (by rw [resample_four_two]; norm_num)
  refine ⟨?_, h.2⟩
  rw [h.1]
  norm_num

/-- C6: the resampled length is the input length times outputRate over
inputRate, rounded half up, for all positive rates (in both branches of the
code); and an empty input resamples to the empty sequence at any rates. -/
theorem c6_resample_length (x : List ℚ) (rin rout : ℚ)
    (h1 : 0 < rin) (h2 : 0 < rout) :
    (resampleAudio x rin rout).length =
      (jsRound ((x.length : ℚ) * rout / rin)).toNat ∧
    resampleAudio [] rin rout = [] :=
  ⟨resampleAudio_length x rin rout h1 h2, resample_nil rin rout⟩

/-- Witness for C6: three samples from rate 4 to rate 2. -/
theorem c6_witness :
    (resampleAudio [1, 2, 3] 4 2).length =
      (jsRound ((([1, 2, 3] : List ℚ).length : ℚ) * 2 / 4)).toNat ∧
    resampleAudio [] 4 2 = [] :=
  c6_resample_length [1, 2, 3] 4 2 (by norm_num) (by norm_num)

/-- C7: resampling at equal rates is the identity on the sample sequence. -/
theorem c7_resample_identity (x : List ℚ) (r : ℚ) (h : 0 < r) :
    resampleAudio x r r = x := by
  rw [resampleAudio, if_pos rfl]

/-- Witness for C7 at a concrete sequence and rate. -/
theorem c7_witness : resampleAudio [1, 2] 3 3 = [1, 2] :=
  c7_resample_identity [1, 2] 3 (by norm_num)

/-- C8: boundedness — for a non-empty input and positive rates, every output
sample of the resampler lies between the minimum and the maximum of the
input samples (linear interpolation never overshoots). -/
theorem c8_resample_bounded (x : List ℚ) (rin rout : ℚ)
    (h1 : 0 < rin) (h2 : 0 < rout) (hx : 0 < x.length) :
    ∀ y ∈ resampleAudio x rin rout,
      x.minimum_of_length_pos hx ≤ y ∧ y ≤ x.maximum_of_length_pos hx := by
  intro y hy
  obtain ⟨⟨a, ha, hay⟩, ⟨b, hb, hyb⟩⟩ := resample_mem_bounds x rin rout h1 h2 y hy
  exact ⟨le_trans (List.minimum_of_length_pos_le_of_mem ha hx) hay,
    le_trans hyb (List.le_maximum_of_length_pos_of_mem hb hx)⟩

/-- Witness for C8: the sample 0 of the scenario output lies between the
minimum and maximum of the scenario input. -/
theorem c8_witness :
    ([0, 1, 0, -1] : List ℚ).minimum_of_length_pos (by decide) ≤ 0 ∧
    (0 : ℚ) ≤ ([0, 1, 0, -1] : List ℚ).maximum_of_length_pos (by decide) :=
  c8_resample_bounded [0, 1, 0, -1] 4 2 (by norm_num) (by norm_num) (by decide) 0
    (by rw [resample_four_two]; simp)

/-- C9: both audio loaders select channel 0 of the decoded audio only, agree
with each other, return the channel-0 samples unchanged when the native rate
equals the requested rate, and apply the resampler exactly when the rates
differ. -/
theorem c9_loader_channel0 (decoded : DecodedAudio) (target : ℚ) :
    read_audio decoded target = read_audio_from_blob decoded target ∧
    (decoded.sampleRate = target →
      read_audio decoded target = decoded.channels.getD 0 []) ∧
    (decoded.sampleRate ≠ target →
      read_audio decoded target =
        resampleAudio (decoded.channels.getD 0 []) decoded.sampleRate target) := by
  refine ⟨rfl, ?_, ?_⟩
  · intro h
    rw [read_audio]
    simp [h]
  · intro h
    rw [read_audio]
    simp [h]

/-- Witness for C9: equal rates pass channel 0 through unchanged, and both
loaders agree. -/
theorem c9_witness :
    read_audio { channels := [[1, 2], [3]], sampleRate := 5 } 5 = [1, 2] ∧
    read_audio { channels := [[1, 2], [3]], sampleRate := 5 } 5 =
      read_audio_from_blob { channels := [[1, 2], [3]], sampleRate := 5 } 5 := by
  have h := c9_loader_channel0 { channels := [[1, 2], [3]], sampleRate := 5 } 5
  exact ⟨h.2.1 rfl, h.1⟩

/-- C10: in-bounds indexing — for a non-empty input and distinct positive
integer rates, every output index i of the resampler yields a base index
(the floor of i times inputRate over outputRate) that is nonnegative and
below the input length, and in the interpolation branch the next index is
below the input length as well, so no array read is out of range. -/
theorem c10_resample_inbounds (x : List ℚ) (rin rout : ℕ)
    (h1 : 0 < rin) (h2 : 0 < rout) (hne : rin ≠ rout) (hx : x ≠ []) (i : ℕ)
    (hi : i < (resampleAudio x (rin : ℚ) (rout : ℚ)).length) :
    0 ≤ ⌊(i : ℚ) * ((rin : ℚ) / (rout : ℚ))⌋ ∧
    (⌊(i : ℚ) * ((rin : ℚ) / (rout : ℚ))⌋).toNat < x.length ∧
    (⌊(i : ℚ) * ((rin : ℚ) / (rout : ℚ))⌋ + 1 < (x.length : ℤ) →
      (⌊(i : ℚ) * ((rin : ℚ) / (rout : ℚ))⌋).toNat + 1 < x.length) := by
  have hq : (rin : ℚ) ≠ (rout : ℚ) := by exact_mod_cast hne
  have hlen : (resampleAudio x (rin : ℚ) (rout : ℚ)).length =
      (jsRound ((x.length : ℚ) / ((rin : ℚ) / (rout : ℚ)))).toNat := by
    rw [resampleAudio, if_neg hq]
    simp only [List.length_map, List.length_range]
  rw [hlen] at hi
  have hr : 0 < (rin : ℚ) / (rout : ℚ) :=
    div_pos (by exact_mod_cast h1) (by exact_mod_cast h2)
  obtain ⟨hge, hlt⟩ := floor_position_bounds x.length ((rin : ℚ) / (rout : ℚ)) hr i hi
  refine ⟨hge, by omega, fun hb => by omega⟩

/-- Witness for C10 at the scenario input, output index 1. -/
theorem c10_witness :
    0 ≤ ⌊((1 : ℕ) : ℚ) * (((4 : ℕ) : ℚ) / ((2 : ℕ) : ℚ))⌋ ∧
    (⌊((1 : ℕ) : ℚ) * (((4 : ℕ) : ℚ) / ((2 : ℕ) : ℚ))⌋).toNat <
      ([0, 1, 0, -1] : List ℚ).length ∧
    (⌊((1 : ℕ) : ℚ) * (((4 : ℕ) : ℚ) / ((2 : ℕ) : ℚ))⌋ + 1 <
        (([0, 1, 0, -1] : List ℚ).length : ℤ) →
      (⌊((1 : ℕ) : ℚ) * (((4 : ℕ) : ℚ) / ((2 : ℕ) : ℚ))⌋).toNat + 1 <
        ([0, 1, 0, -1] : List ℚ).length) :=
  c10_resample_inbounds [0, 1, 0, -1] 4 2 (by norm_num) (by norm_num) (by norm_num)
    (by simp) 1 (by push_cast; rw [resample_four_two]; norm_num)
